import Mathlib

/-!
Verification development for the buzz distributed query engine.

The definitions below are a shallow embedding of the planner
(src/services/fuse/query_planner.rs), the scanner service
(src/services/hbee/hbee_service.rs) and the parquet execution plan
(src/execution_plan/s3_parquet.rs). Pure control flow is translated
function by function; side effects (prefetch calls, collector messages)
are reified as explicit event values, and Rust panics are reified as a
dedicated outcome constructor.
-/

/-- Error kinds of the crate (crate::error is not part of the provided
sources; the kinds are modelled from the spec, section 7: Plan, IO,
Execution, Internal, plus the NotImplemented constructor used by the
not_impl_err macro). -/
inductive BuzzError where
  | notImplemented (msg : String)
  | internal (msg : String)
  | planError (msg : String)
  | execution (msg : String)
deriving DecidableEq

/- ===================== Planner data model ===================== -/

/-- Step type of a BuzzStep (models::query::BuzzStepType). -/
inductive BuzzStepType where
  | HBee
  | HComb
deriving DecidableEq

/-- One SQL stage of a query (models::query::BuzzStep). -/
structure BuzzStep where
  sql : String
  name : String
  step_type : BuzzStepType
deriving DecidableEq

/-- Table sources a logical plan leaf can carry. CatalogTable is the
splittable planner-side source; it carries the identifiers of the
HBeeTables its split method enumerates. The hbeeTable constructor is a
scanner-side table produced by splitting; hcombTable is the combiner-side
virtual table; other covers any further TableProvider. -/
inductive TableSource where
  | catalogTable (tables : List Nat)
  | hbeeTable (id : Nat)
  | hcombTable (id : Nat)
  | other (id : Nat)

/-- Shallow embedding of datafusion LogicalPlan as used by the planner:
a leaf TableScan carrying a table source, or an interior node carrying an
opaque operator tag, its expressions (opaque identifiers) and its input
subplans. This is exactly the interface the planner relies on (spec,
section 3): inputs, expressions, reconstruction from
(self, expressions, new_inputs), and leaf downcasting. -/
inductive LogicalPlan where
  | tableScan (source : TableSource)
  | node (op : Nat) (exprs : List Nat) (inputs : List LogicalPlan)

/-- datafusion::optimizer::utils::inputs. -/
def LogicalPlan.inputs : LogicalPlan → List LogicalPlan
  | .tableScan _ => []
  | .node _ _ ins => ins

/-- datafusion::optimizer::utils::expressions. -/
def LogicalPlan.expressions : LogicalPlan → List Nat
  | .tableScan _ => []
  | .node _ exprs _ => exprs

/-- datafusion::optimizer::utils::from_plan: rebuild a plan node from
itself, a list of expressions and a list of new inputs. -/
def from_plan (plan : LogicalPlan) (exprs : List Nat)
    (inputs : List LogicalPlan) : LogicalPlan :=
  match plan with
  | .tableScan s => .tableScan s
  | .node op _ _ => .node op exprs inputs

/-- QueryPlanner::as_catalog: downcast the leaf table source to a
CatalogTable if possible (query_planner.rs, lines 134-140). -/
def as_catalog : LogicalPlan → Option (List Nat)
  | .tableScan (.catalogTable tables) => some tables
  | _ => none

/-- QueryPlanner::split (query_planner.rs, lines 93-132). A node with
more than one input is rejected with NotImplemented; a node with exactly
one input recurses on it and rebuilds itself (via from_plan with its own
expressions) around every returned plan; a leaf that downcasts to a
CatalogTable is replaced by one fresh table scan per item of
catalog.split() (the source reads each item back through
ExecutionContext::read_table); any other leaf is returned unchanged as a
singleton. -/
def split : LogicalPlan → Except BuzzError (List LogicalPlan)
  | .node _op _exprs (_i1 :: _i2 :: _rest) =>
      .error (.notImplemented "Operations with more than one inputs are not supported")
  | .node op exprs [input] =>
      match split input with
      | .error e => .error e
      | .ok inputs =>
          .ok (inputs.map (fun lp =>
            from_plan (.node op exprs [input]) exprs [lp]))
  | .tableScan (.catalogTable tables) =>
      .ok (tables.map (fun t => LogicalPlan.tableScan (.hbeeTable t)))
  | .tableScan src => .ok [.tableScan src]
  | .node op exprs [] => .ok [.node op exprs []]

mutual

/-- True if some node of the plan has more than one input subplan. -/
def containsMultiInput : LogicalPlan → Bool
  | .tableScan _ => false
  | .node _ _ ins => decide (ins.length > 1) || containsMultiInputList ins

/-- List version of containsMultiInput, for the nested recursion. -/
def containsMultiInputList : List LogicalPlan → Bool
  | [] => false
  | p :: rest => containsMultiInput p || containsMultiInputList rest

end

/-- True if every node of the plan has at most one input (linear plan). -/
def isLinear : LogicalPlan → Bool
  | .tableScan _ => true
  | .node _ _ [] => true
  | .node _ _ [input] => isLinear input
  | .node _ _ _ => false

/-- The leaf at the end of the single-input chain of a plan. -/
def leafOf : LogicalPlan → LogicalPlan
  | .node _ _ [input] => leafOf input
  | p => p

/-- True if the plan is a table scan over a CatalogTable. -/
def isCatalogScan : LogicalPlan → Bool
  | .tableScan (.catalogTable _) => true
  | _ => false

/-- One hcomb/hbee combination of plans for a zone
(query_planner.rs, lines 16-19). -/
structure ZonePlan where
  hbee : List LogicalPlan
  hcomb : LogicalPlan

/-- The plans to be distributed among hbees and hcombs
(query_planner.rs, lines 23-26). -/
structure DistributedPlan where
  zones : List ZonePlan

/-- Default zone used as the fallback value of positional lookups. -/
def zoneDefault : ZonePlan :=
  { hbee := [], hcomb := .tableScan (.other 0) }

/-- Outcome of QueryPlanner::plan: a Rust panic (assertion failure or
arithmetic fault), an error Result, or a DistributedPlan. -/
inductive PlanOutcome where
  | panicked (msg : String)
  | err (e : BuzzError)
  | ok (dp : DistributedPlan)

/-- True only for the err outcome. -/
def PlanOutcome.isErr : PlanOutcome → Bool
  | .err _ => true
  | _ => false

/-- The condition of the assert at the top of QueryPlanner::plan
(query_planner.rs, lines 46-51). -/
def stepsAssert (query_steps : List BuzzStep) : Bool :=
  decide (query_steps.length = 2)
    && (match query_steps[0]? with
        | some s => s.step_type == BuzzStepType.HBee
        | none => false)
    && (match query_steps[1]? with
        | some s => s.step_type == BuzzStepType.HComb
        | none => false)

/-- The message of that assert. -/
def stepsAssertMsg : String :=
  "You must have one exactly one HBee step followed by one HComb step for now"

/-- Rust cast from i16 to usize: sign extension reinterpreted as an
unsigned 64 bit value. -/
def i16_as_usize (v : Int) : Nat := (v % 2 ^ 64).toNat

/-- One iteration of the closure in
bee_plans.into_iter().enumerate().for_each(...): push one bee plan at
the end of the hbee list of zone i (query_planner.rs, line 84). The
out-of-range branch is unreachable in plan because i is a remainder mod
the number of zones. -/
def pushBee (zones : List ZonePlan) (i : Nat) (p : LogicalPlan) :
    List ZonePlan :=
  match zones[i]? with
  | some z => zones.set i { z with hbee := z.hbee ++ [p] }
  | none => zones

/-- The for_each loop distributing bee plans between zones
(query_planner.rs, lines 81-84): plan number i goes to zone
i % used_hcomb. -/
def distributeLoop (used_hcomb : Nat) (i : Nat) (plans : List LogicalPlan)
    (zones : List ZonePlan) : List ZonePlan :=
  match plans with
  | [] => zones
  | p :: rest =>
      distributeLoop used_hcomb (i + 1) rest
        (pushBee zones (i % used_hcomb) p)

/-- QueryPlanner::plan (query_planner.rs, lines 39-87). The two SQL
parsing calls (ExecutionContext::sql on each step) are abstracted as the
already-computed results parse_bee and parse_hcomb; everything after
them follows the source line by line: assert on the step shape, split of
the bee plan, used_hcomb = min(nb_hcomb as usize, bee_plans.len()),
zones initialised with clones of the hcomb plan, then the round-robin
for_each. A remainder by zero (used_hcomb = 0 with a nonempty bee plan
list) is a Rust panic. -/
def QueryPlanner.plan (parse_bee : Except BuzzError LogicalPlan)
    (parse_hcomb : Except BuzzError LogicalPlan)
    (query_steps : List BuzzStep) (nb_hcomb : Int) : PlanOutcome :=
  if stepsAssert query_steps then
    match parse_bee with
    | .error e => .err e
    | .ok src_bee_plan =>
      match split src_bee_plan with
      | .error e => .err e
      | .ok bee_plans =>
        match parse_hcomb with
        | .error e => .err e
        | .ok hcomb_plan =>
          let used_hcomb := min (i16_as_usize nb_hcomb) bee_plans.length
          if used_hcomb = 0 ∧ 0 < bee_plans.length then
            .panicked "attempt to calculate the remainder with a divisor of zero"
          else
            let zones := (List.range used_hcomb).map
              (fun _i => ZonePlan.mk [] hcomb_plan)
            .ok ⟨distributeLoop used_hcomb 0 bee_plans zones⟩
  else
    .panicked stepsAssertMsg

/- ===================== Parquet execution plan model ===================== -/

/-- A field of an arrow schema: name, data type (opaque identifier) and
nullability. Field equality covers all three components. -/
structure ArrowField where
  name : String
  dtype : Nat
  nullable : Bool
deriving DecidableEq

/-- An arrow schema: a field list plus schema-level metadata. -/
structure Schema where
  fields : List ArrowField
  metadata : List (String × String)
deriving DecidableEq

/-- Metadata of one column chunk of a row group: the byte range
(start, length) returned by byte_range(). -/
structure ColumnChunkMeta where
  start : Nat
  length : Nat
deriving DecidableEq

/-- Metadata of one row group: its column chunks. -/
structure RowGroupMeta where
  columns : List ColumnChunkMeta
deriving DecidableEq

/-- The parquet footer metadata of one file. -/
structure ParquetMetaData where
  row_groups : List RowGroupMeta
deriving DecidableEq

/-- A handle on one object-store file as seen by ParquetExec: its byte
length, the parquet metadata its footer parses to, and the arrow schema
derived from that metadata (arrow_reader.get_schema()). -/
structure S3FileAsync where
  len : Nat
  metadata : ParquetMetaData
  arrow_schema : Schema
deriving DecidableEq

/-- A prefetch call observed on the range cache: the index of the file
handle the call was issued on, and the requested byte range. -/
structure PrefetchEvent where
  file : Nat
  start : Nat
  length : Nat
deriving DecidableEq

/-- Rust u64::checked_sub. -/
def checkedSub (a b : Nat) : Option Nat :=
  if b ≤ a then some (a - b) else none

/-- ParquetExec::download_footer (s3_parquet.rs, lines 93-100): the byte
range prefetched for the footer, namely the last 1024 * 1024 bytes, or
the whole file when it is shorter than that. -/
def download_footer (file : S3FileAsync) : Nat × Nat :=
  let end_length := 1024 * 1024
  match checkedSub file.len end_length with
  | some val => (val, end_length)
  | none => (0, file.len)

/-- How the per-file processing of ParquetExec::try_new ends early: a
returned DataFusionError::Plan, or a Rust panic (out-of-bounds index). -/
inductive TryNewStop where
  | planStop (msg : String)
  | panicStop (msg : String)
deriving DecidableEq

/-- The inner loop over the projected columns of row group number i of
the current file (s3_parquet.rs, lines 69-74). The column lookup panics
when the projected index is out of range, and files[i] panics when i
(the row group index, which shadows the file loop index in the source)
is not a valid file index. -/
def columnLoop (files : List S3FileAsync) (rg : RowGroupMeta) (i : Nat) :
    List Nat → List PrefetchEvent × Option TryNewStop
  | [] => ([], none)
  | proj :: rest =>
    match rg.columns[proj]? with
    | none => ([], some (.panicStop "index out of bounds"))
    | some col =>
      match files[i]? with
      | none => ([], some (.panicStop "index out of bounds"))
      | some _ =>
        let (evs, stop) := columnLoop files rg i rest
        (⟨i, col.start, col.length⟩ :: evs, stop)

/-- The loop over the row groups of the current file
(s3_parquet.rs, lines 68-75). The loop variable i starts at 0 and is the
index used for files[i].prefetch. -/
def rowGroupLoop (files : List S3FileAsync) (projection : List Nat)
    (i : Nat) : List RowGroupMeta → List PrefetchEvent × Option TryNewStop
  | [] => ([], none)
  | rg :: rest =>
    match columnLoop files rg i projection with
    | (evs, some stop) => (evs, some stop)
    | (evs, none) =>
      let (evs2, stop2) := rowGroupLoop files projection (i + 1) rest
      (evs ++ evs2, stop2)

/-- The body of the file loop of ParquetExec::try_new for the file of
index f (s3_parquet.rs, lines 53-76): prefetch the footer of files[f],
compare the parsed arrow field list against the supplied schema field
list (schema-level metadata is not consulted), then run the row group
prefetch loop starting at row group index 0. -/
def processFile (files : List S3FileAsync) (schema : Schema)
    (projection : List Nat) (f : Nat) (file : S3FileAsync) :
    List PrefetchEvent × Option TryNewStop :=
  let footer := download_footer file
  let footerEv : PrefetchEvent := ⟨f, footer.1, footer.2⟩
  if schema.fields ≠ file.arrow_schema.fields then
    ([footerEv], some (.planStop "Expected and parsed schema fields are not equal"))
  else
    let (evs, stop) := rowGroupLoop files projection 0 file.metadata.row_groups
    (footerEv :: evs, stop)

/-- The file loop of ParquetExec::try_new (for i in 0..files.len()),
processing the remaining files rem whose first element has index f and
stopping at the first error or panic. -/
def filesLoop (files : List S3FileAsync) (schema : Schema)
    (projection : List Nat) (f : Nat) :
    List S3FileAsync → List PrefetchEvent × Option TryNewStop
  | [] => ([], none)
  | file :: rest =>
    match processFile files schema projection f file with
    | (evs, some stop) => (evs, some stop)
    | (evs, none) =>
      let (evs2, stop2) := filesLoop files schema projection (f + 1) rest
      (evs ++ evs2, stop2)

/-- The ParquetExec value built on success
(s3_parquet.rs, lines 22-31 and 78-90). -/
structure ParquetExec where
  files : List S3FileAsync
  schema : Schema
  projection : List Nat
  batch_size : Nat
deriving DecidableEq

/-- Outcome of ParquetExec::try_new, together with the prefetch events
issued on the way: a Rust panic, an error Result, or the constructed
execution plan. -/
inductive TryNewResult where
  | panicked (events : List PrefetchEvent) (msg : String)
  | err (events : List PrefetchEvent) (e : BuzzError)
  | ok (events : List PrefetchEvent) (exec : ParquetExec)

/-- The events recorded in a TryNewResult. -/
def TryNewResult.events : TryNewResult → List PrefetchEvent
  | .panicked evs _ => evs
  | .err evs _ => evs
  | .ok evs _ => evs

/-- True only for the ok outcome. -/
def TryNewResult.isOk : TryNewResult → Bool
  | .ok _ _ => true
  | _ => false

/-- True only for the err outcome. -/
def TryNewResult.isErr : TryNewResult → Bool
  | .err _ _ => true
  | _ => false

/-- Schema::new(projection.map(|col| schema.field(col))): project the
field list, panicking (none) when an index is out of range. -/
def projectFields (fields : List ArrowField) (projection : List Nat) :
    Option (List ArrowField) :=
  projection.mapM (fun col => fields[col]?)

/-- The projection defaulting at the top of ParquetExec::try_new
(s3_parquet.rs, lines 48-51): identity over the supplied schema when
absent. -/
def defaultProjection (projection : Option (List Nat)) (schema : Schema) :
    List Nat :=
  match projection with
  | some p => p
  | none => List.range schema.fields.length

/-- ParquetExec::try_new (s3_parquet.rs, lines 42-91): default the
projection to the identity over the supplied schema, run the file loop
(footer prefetch, schema field check, column chunk prefetches), then
build the plan with the projected schema. -/
def ParquetExec.try_new (files : List S3FileAsync)
    (projection : Option (List Nat)) (batch_size : Nat) (schema : Schema) :
    TryNewResult :=
  match filesLoop files schema (defaultProjection projection schema) 0 files with
  | (evs, some (.planStop msg)) => .err evs (.planError msg)
  | (evs, some (.panicStop msg)) => .panicked evs msg
  | (evs, none) =>
    match projectFields schema.fields (defaultProjection projection schema) with
    | none => .panicked evs "index out of bounds"
    | some projected =>
      .ok evs ⟨files, ⟨projected, []⟩, defaultProjection projection schema, batch_size⟩

/- ===================== Scanner (hbee) service model ===================== -/

/-- A record batch, with opaque payload. -/
structure RecordBatch where
  payload : Nat
deriving DecidableEq

/-- Shallow embedding of a scanner-side physical plan: a leaf carries
the batches of each of its output partitions; MergeExec is the
in-memory merge operator wrapping a child plan
(datafusion::physical_plan::merge::MergeExec). -/
inductive PhysExec where
  | leaf (partitions : List (List RecordBatch))
  | mergeExec (child : PhysExec)

/-- output_partitioning().partition_count(): a MergeExec always has
exactly one output partition. -/
def PhysExec.partitionCount : PhysExec → Nat
  | .leaf partitions => partitions.length
  | .mergeExec _ => 1

/-- The batches of each output partition: MergeExec concatenates every
partition of its child into its single output partition. -/
def PhysExec.partitionData : PhysExec → List (List RecordBatch)
  | .leaf partitions => partitions
  | .mergeExec child => [child.partitionData.flatten]

/-- datafusion::physical_plan::collect: gather the batches of every
output partition of the plan. -/
def collectBatches (p : PhysExec) : List RecordBatch :=
  p.partitionData.flatten

/-- The partition merge step of HBeeService::query
(hbee_service.rs, lines 75-84): zero partitions is an internal error,
one partition is used unchanged, more than one partition is wrapped in
a MergeExec. -/
def mergeIfNeeded (physical_plan : PhysExec) : Except BuzzError PhysExec :=
  match physical_plan.partitionCount with
  | 0 => .error (.internal "Should have at least one partition")
  | 1 => .ok physical_plan
  | _ => .ok (.mergeExec physical_plan)

/-- HBeeService::query (hbee_service.rs, lines 63-88). The fallible
front of the pipeline (optimize, HBeeTable lookup, physical planning)
is abstracted as its outcome planned; on its success the partition
merge step runs and the batches of the resulting plan are collected. -/
def HBeeService.query (planned : Except BuzzError PhysExec) :
    Except BuzzError (List RecordBatch) :=
  match planned with
  | .error e => .error e
  | .ok physical_plan =>
    match mergeIfNeeded physical_plan with
    | .error e => .error e
    | .ok merged_plan => .ok (collectBatches merged_plan)

/-- A human readable reason for a BuzzError, used in FAIL actions. -/
def BuzzError.reason : BuzzError → String
  | .notImplemented msg => msg
  | .internal msg => msg
  | .planError msg => msg
  | .execution msg => msg

/-- A message sent to the combiner through the Collector: either a
streaming upload of the collected batches, or a FAIL action carrying
the query identifier and the failure reason. -/
inductive CollectorEvent where
  | upload (query_id : String) (batches : List RecordBatch)
  | fail (query_id : String) (reason : String)
deriving DecidableEq

/-- Modelled from the spec: Collector::send_back. The Collector
implementation is not part of the provided sources (only the call in
hbee_service.rs, line 54, is); the spec (sections 4.4 steps 5 and 6 and
section 7) states that on success it opens a streaming upload with the
collected batches and that on any failure it sends a FAIL action
carrying the query id and the reason. -/
def send_back (query_id : String)
    (query_res : Except BuzzError (List RecordBatch)) : CollectorEvent :=
  match query_res with
  | .ok batches => .upload query_id batches
  | .error e => .fail query_id e.reason

/-- HBeeService::execute_query (hbee_service.rs, lines 36-57): run the
internal query phase and hand its outcome to the collector exactly
once; the returned list is the full trace of collector events of the
invocation. -/
def HBeeService.execute_query (query_id : String)
    (planned : Except BuzzError PhysExec) : List CollectorEvent :=
  let query_res := HBeeService.query planned
  [send_back query_id query_res]

/- ===================== Parquet stream model ===================== -/

/-- An item of the batch stream: a record batch or an arrow error. -/
inductive StreamItem where
  | batch (b : RecordBatch)
  | failure (msg : String)
deriving DecidableEq

/-- A message the parquet worker thread sends on the bounded channel:
some item (batch or error), or none as the end-of-file sentinel
(s3_parquet.rs, read_file, lines 173-204). -/
abbrev WorkerMsg := Option StreamItem

/-- ParquetStream::poll_next (s3_parquet.rs, lines 214-223) applied to
the messages still queued in the channel: a queued message is returned
as Poll::Ready of that message; when the queue is empty and the sender
is gone, recv returns RecvError, which poll_next maps to
Poll::Ready(None), the normal end of stream. Returns the item delivered
to the consumer and the remaining queue. -/
def pollNext (queued : List WorkerMsg) : Option StreamItem × List WorkerMsg :=
  match queued with
  | [] => (none, [])
  | msg :: rest => (msg, rest)

/-- The sequence of items a consumer draining the stream observes,
given the messages the worker sent before exiting (the channel closes
when the worker exits, whether or not it sent the none sentinel):
polling stops at the first none item. -/
def streamItems (sent : List WorkerMsg) : List StreamItem :=
  match sent with
  | [] => []
  | none :: _ => []
  | some item :: rest => item :: streamItems rest

/- ===================== Demo values ===================== -/

/-- Default file used as the fallback value of positional lookups. -/
def fileDefault : S3FileAsync :=
  { len := 0, metadata := { row_groups := [] }, arrow_schema := { fields := [], metadata := [] } }

/-- Schema with a single int64-like field, used by the concrete runs of
the parquet constructor. -/
def c3_schema : Schema :=
  { fields := [{ name := "a", dtype := 0, nullable := false }], metadata := [] }

/-- Two files with matching schemas: file 0 has one row group whose
column 0 chunk spans (100, 10); file 1 has two row groups whose column 0
chunks span (200, 20) and (300, 30). -/
def c3_files : List S3FileAsync :=
  [ { len := 10,
      metadata := { row_groups := [{ columns := [{ start := 100, length := 10 }] }] },
      arrow_schema := c3_schema },
    { len := 50,
      metadata := { row_groups := [{ columns := [{ start := 200, length := 20 }] },
                                   { columns := [{ start := 300, length := 30 }] }] },
      arrow_schema := c3_schema } ]

/-- A single file with two row groups, enough to drive the files[i]
lookup of the row group prefetch loop out of bounds. -/
def c3_one_file : List S3FileAsync :=
  [ { len := 10,
      metadata := { row_groups := [{ columns := [{ start := 100, length := 10 }] },
                                   { columns := [{ start := 150, length := 10 }] }] },
      arrow_schema := c3_schema } ]

/-- A single short file with no row groups and a matching schema, on
which the constructor succeeds. -/
def c6_files : List S3FileAsync :=
  [{ len := 10, metadata := { row_groups := [] }, arrow_schema := c3_schema }]

/-- A single file whose parsed schema field list does not match the
supplied schema c3_schema (different field name). -/
def c7_files : List S3FileAsync :=
  [{ len := 10, metadata := { row_groups := [] },
     arrow_schema := { fields := [{ name := "b", dtype := 0, nullable := false }],
                       metadata := [] } }]

/- ===================== Claim C2 ===================== -/

/-- C2 counterexample: on the empty step list (not two steps), the claim
says plan returns a NotImplemented error result; instead the call ends
in a Rust panic (the assert at query_planner.rs, lines 46-51), so the
outcome is not an error result at all. -/
theorem C2_plan_empty_steps_panics :
    QueryPlanner.plan (.ok (.tableScan (.other 0)))
        (.ok (.tableScan (.other 0))) [] 1 = .panicked stepsAssertMsg
    ∧ (QueryPlanner.plan (.ok (.tableScan (.other 0)))
        (.ok (.tableScan (.other 0))) [] 1).isErr = false := by
  constructor <;> rfl

/-- C2 (amended): for every input that is not exactly two steps with the
first of type Scan (HBee) and the second of type Merge (HComb),
QueryPlanner::plan panics on its assert (with the fixed assertion
message), rather than returning an error result. -/
theorem C2_plan_bad_steps_asserts (parse_bee parse_hcomb : Except BuzzError LogicalPlan)
    (query_steps : List BuzzStep) (nb_hcomb : Int)
    (h : stepsAssert query_steps = false) :
    QueryPlanner.plan parse_bee parse_hcomb query_steps nb_hcomb =
      .panicked stepsAssertMsg := by
  simp [QueryPlanner.plan, h]

/-- C2 witness: a concrete one-step input violating the contract makes
plan panic with the assertion message. -/
theorem C2_plan_bad_steps_asserts_witness :
    stepsAssert [⟨"SELECT 1", "mapper", .HBee⟩] = false
    ∧ QueryPlanner.plan (.ok (.tableScan (.other 0)))
        (.ok (.tableScan (.other 0))) [⟨"SELECT 1", "mapper", .HBee⟩] 1 =
        .panicked stepsAssertMsg :=
  ⟨by rfl, C2_plan_bad_steps_asserts _ _ _ 1 (by rfl)⟩

/- ===================== Claim C4 ===================== -/

/-- C4: in HBeeService::query, a physical plan with zero output
partitions raises an Internal error; a plan with exactly one partition
is used unchanged; a plan with more than one partition is wrapped in a
MergeExec whose output has exactly one partition; in both non-error
cases the batches are collected from the resulting plan, whose single
partition holds all the batches. -/
theorem C4_partition_merge (p : PhysExec) :
    (p.partitionCount = 0 →
      HBeeService.query (.ok p) =
        .error (.internal "Should have at least one partition"))
    ∧ (p.partitionCount = 1 →
        mergeIfNeeded p = .ok p
        ∧ HBeeService.query (.ok p) = .ok (collectBatches p))
    ∧ (1 < p.partitionCount →
        mergeIfNeeded p = .ok (.mergeExec p)
        ∧ (PhysExec.mergeExec p).partitionCount = 1
        ∧ HBeeService.query (.ok p) = .ok (collectBatches (.mergeExec p))) := by
  refine ⟨fun h => ?_, fun h => ?_, fun h => ?_⟩
  · simp [HBeeService.query, mergeIfNeeded, h]
  · simp [HBeeService.query, mergeIfNeeded, h]
  · obtain ⟨n, hn⟩ : ∃ n, p.partitionCount = n + 2 :=
      ⟨p.partitionCount - 2, by omega⟩
    refine ⟨?_, rfl, ?_⟩ <;> simp [HBeeService.query, mergeIfNeeded, hn]

/-- C4 witness: a concrete four-partition plan is wrapped in a MergeExec
with one output partition and all batches are collected from it. -/
theorem C4_partition_merge_witness :
    1 < (PhysExec.leaf [[⟨1⟩], [⟨2⟩], [⟨3⟩], [⟨4⟩]]).partitionCount
    ∧ (mergeIfNeeded (.leaf [[⟨1⟩], [⟨2⟩], [⟨3⟩], [⟨4⟩]]) =
        .ok (.mergeExec (.leaf [[⟨1⟩], [⟨2⟩], [⟨3⟩], [⟨4⟩]]))
      ∧ (PhysExec.mergeExec (.leaf [[⟨1⟩], [⟨2⟩], [⟨3⟩], [⟨4⟩]])).partitionCount = 1
      ∧ HBeeService.query (.ok (.leaf [[⟨1⟩], [⟨2⟩], [⟨3⟩], [⟨4⟩]])) =
          .ok (collectBatches (.mergeExec (.leaf [[⟨1⟩], [⟨2⟩], [⟨3⟩], [⟨4⟩]])))) :=
  ⟨by decide, (C4_partition_merge _).2.2 (by decide)⟩

/- ===================== Claim C5 ===================== -/

/-- C5: every invocation of HBeeService::execute_query produces exactly
one collector event; when the internal query phase succeeds the event
is the upload of the collected batches, and when it fails the event is
a FAIL action carrying the error reason, so success upload and FAIL are
mutually exclusive. -/
theorem C5_collector_forwarding (query_id : String)
    (planned : Except BuzzError PhysExec) :
    (HBeeService.execute_query query_id planned).length = 1
    ∧ (∀ batches, HBeeService.query planned = .ok batches →
        HBeeService.execute_query query_id planned =
          [.upload query_id batches])
    ∧ (∀ e, HBeeService.query planned = .error e →
        HBeeService.execute_query query_id planned =
          [.fail query_id e.reason])
    ∧ ∀ qid b r,
        ¬(CollectorEvent.upload qid b ∈ HBeeService.execute_query query_id planned
          ∧ CollectorEvent.fail qid r ∈ HBeeService.execute_query query_id planned) := by
  refine ⟨rfl, fun batches h => ?_, fun e h => ?_, fun qid b r ⟨hu, hf⟩ => ?_⟩
  · simp [HBeeService.execute_query, send_back, h]
  · simp [HBeeService.execute_query, send_back, h]
  · cases hq : HBeeService.query planned <;>
      simp [HBeeService.execute_query, send_back, hq] at hu hf

/-- C5 witness: a concrete successful single-partition plan is forwarded
as exactly one upload event with its collected batches. -/
theorem C5_collector_forwarding_witness :
    HBeeService.query (.ok (.leaf [[⟨5⟩, ⟨6⟩]])) = .ok [⟨5⟩, ⟨6⟩]
    ∧ HBeeService.execute_query "q1" (.ok (.leaf [[⟨5⟩, ⟨6⟩]])) =
        [.upload "q1" [⟨5⟩, ⟨6⟩]] :=
  ⟨by rfl, (C5_collector_forwarding "q1" _).2.1 _ (by rfl)⟩

/- ===================== Claim C10 ===================== -/

/-- C10: when the channel of the parquet worker thread closes without
the end-of-file sentinel having been sent, poll_next returns a normal
end of stream rather than an error: polling the closed empty channel
yields Ready None, the items observed from a worker that exited after
sending some messages without the sentinel are exactly the items
observed from a worker that cleanly appended the sentinel (so the two
runs are indistinguishable), and an error item reaches the consumer
only when the worker explicitly sent that error before exiting. -/
theorem C10_closed_channel_is_clean_end (sent : List WorkerMsg) :
    pollNext [] = (none, [])
    ∧ streamItems (sent ++ [none]) = streamItems sent
    ∧ (∀ msg, StreamItem.failure msg ∈ streamItems sent →
        some (StreamItem.failure msg) ∈ sent) := by
  refine ⟨rfl, ?_, ?_⟩
  · induction sent with
    | nil => rfl
    | cons head rest ih =>
      cases head with
      | none => rfl
      | some item => simpa [streamItems] using ih
  · induction sent with
    | nil => intro msg h; simp [streamItems] at h
    | cons head rest ih =>
      intro msg h
      cases head with
      | none => simp [streamItems] at h
      | some item =>
        simp only [streamItems, List.mem_cons] at h
        rcases h with h | h
        · subst h; exact List.mem_cons_self _ _
        · exact List.mem_cons_of_mem _ (ih msg h)

/-- C10 witness: a worker that sent one error and then crashed (channel
closed, no sentinel) delivers exactly that error followed by a normal
end of stream. -/
theorem C10_closed_channel_is_clean_end_witness :
    streamItems [some (.failure "boom")] = [.failure "boom"]
    ∧ some (StreamItem.failure "boom") ∈ [some (StreamItem.failure "boom")] :=
  ⟨by rfl,
    (C10_closed_channel_is_clean_end [some (.failure "boom")]).2.2 "boom"
      (by simp [streamItems])⟩

/- ===================== Claim C8 ===================== -/

/-- C8: QueryPlanner::split fails with the NotImplemented error whenever
the logical plan contains a node with more than one input subplan. -/
theorem C8_split_multi_input (p : LogicalPlan)
    (h : containsMultiInput p = true) :
    split p = .error
      (.notImplemented "Operations with more than one inputs are not supported") :=
  match p with
  | .tableScan _ => by simp [containsMultiInput] at h
  | .node _ _ [] => by
      simp [containsMultiInput, containsMultiInputList] at h
  | .node op exprs [input] => by
      have hin : containsMultiInput input = true := by
        simpa [containsMultiInput, containsMultiInputList] using h
      have ih := C8_split_multi_input input hin
      simp [split, ih]
  | .node _ _ (_ :: _ :: _) => by simp [split]

/-- C8 witness: a concrete two-input node is rejected by split with the
NotImplemented error. -/
theorem C8_split_multi_input_witness :
    containsMultiInput
      (.node 0 [] [.tableScan (.other 0), .tableScan (.other 1)]) = true
    ∧ split (.node 0 [] [.tableScan (.other 0), .tableScan (.other 1)]) =
        .error (.notImplemented
          "Operations with more than one inputs are not supported") :=
  ⟨by simp [containsMultiInput],
    C8_split_multi_input _ (by simp [containsMultiInput])⟩

/- ===================== Claim C9 ===================== -/

/-- C9: on a linear plan (every node has at most one input) whose leaf
is not a CatalogTable scan, QueryPlanner::split returns the plan
unchanged as a one-element list. -/
theorem C9_split_non_catalog_identity (p : LogicalPlan)
    (h1 : isLinear p = true) (h2 : isCatalogScan (leafOf p) = false) :
    split p = .ok [p] :=
  match p with
  | .tableScan (.catalogTable _) => by simp [leafOf, isCatalogScan] at h2
  | .tableScan (.hbeeTable _) => by simp [split]
  | .tableScan (.hcombTable _) => by simp [split]
  | .tableScan (.other _) => by simp [split]
  | .node _ _ [] => by simp [split]
  | .node op exprs [input] => by
      have ih := C9_split_non_catalog_identity input
        (by simpa [isLinear] using h1) (by simpa [leafOf] using h2)
      simp [split, ih, from_plan]
  | .node _ _ (_ :: _ :: _) => by simp [isLinear] at h1

/-- C9 witness: a concrete projection node over a non-catalog table scan
is returned unchanged as a singleton. -/
theorem C9_split_non_catalog_identity_witness :
    isLinear (.node 1 [2] [.tableScan (.other 7)]) = true
    ∧ isCatalogScan (leafOf (.node 1 [2] [.tableScan (.other 7)])) = false
    ∧ split (.node 1 [2] [.tableScan (.other 7)]) =
        .ok [.node 1 [2] [.tableScan (.other 7)]] :=
  ⟨by rfl, by rfl,
    C9_split_non_catalog_identity _ (by rfl) (by rfl)⟩

/- ===================== Claim C3 ===================== -/

/-- C3: the row group prefetch loop of ParquetExec::try_new indexes
files by the row group loop variable, which shadows the file loop
variable (s3_parquet.rs, lines 68-74). On two matching files where file
1 has two row groups, the byte range (200, 20) taken from the metadata
of file 1 is prefetched on file 0 and never on file 1; and on a single
file with two row groups, files[1] is out of bounds and the constructor
panics instead of prefetching. -/
theorem C3_prefetch_uses_row_group_index :
    ParquetExec.try_new c3_files (some [0]) 1024 c3_schema =
      .ok [⟨0, 0, 10⟩, ⟨0, 100, 10⟩, ⟨1, 0, 50⟩, ⟨0, 200, 20⟩, ⟨1, 300, 30⟩]
        ⟨c3_files, ⟨[{ name := "a", dtype := 0, nullable := false }], []⟩, [0], 1024⟩
    ∧ (⟨0, 200, 20⟩ : PrefetchEvent) ∈
        (ParquetExec.try_new c3_files (some [0]) 1024 c3_schema).events
    ∧ (⟨1, 200, 20⟩ : PrefetchEvent) ∉
        (ParquetExec.try_new c3_files (some [0]) 1024 c3_schema).events
    ∧ ParquetExec.try_new c3_one_file (some [0]) 1024 c3_schema =
        .panicked [⟨0, 0, 10⟩, ⟨0, 100, 10⟩] "index out of bounds" :=
  ⟨by rfl, by decide, by decide, by rfl⟩


/- ===================== Claims C6 and C7: loop lemmas ===================== -/

/-- The footer range is the last 1048576 bytes for a file of at least
1048576 bytes, and the whole file otherwise. -/
theorem download_footer_spec (file : S3FileAsync) :
    (1048576 ≤ file.len → download_footer file = (file.len - 1048576, 1048576))
    ∧ (file.len < 1048576 → download_footer file = (0, file.len)) := by
  constructor <;> intro h
  · have hle : 1024 * 1024 ≤ file.len := by omega
    simp [download_footer, checkedSub, hle]
  · have hlt : ¬(1024 * 1024 ≤ file.len) := by omega
    simp [download_footer, checkedSub, hlt]

/-- Closed form of the per-file step of the try_new loop. -/
theorem processFile_eq (files : List S3FileAsync) (schema : Schema)
    (projection : List Nat) (f : Nat) (file : S3FileAsync) :
    processFile files schema projection f file =
      if schema.fields ≠ file.arrow_schema.fields then
        ([⟨f, (download_footer file).1, (download_footer file).2⟩],
          some (.planStop "Expected and parsed schema fields are not equal"))
      else
        (⟨f, (download_footer file).1, (download_footer file).2⟩ ::
            (rowGroupLoop files projection 0 file.metadata.row_groups).1,
          (rowGroupLoop files projection 0 file.metadata.row_groups).2) := by
  rcases hrg : rowGroupLoop files projection 0 file.metadata.row_groups with ⟨evs, stop⟩
  simp [processFile, hrg]

/-- When the file loop finishes without stopping, every remaining file
got its footer prefetch event. -/
theorem filesLoop_none_events (files : List S3FileAsync) (schema : Schema)
    (projection : List Nat) :
    ∀ (rem : List S3FileAsync) (f : Nat) (evs : List PrefetchEvent),
      filesLoop files schema projection f rem = (evs, none) →
      ∀ idx, idx < rem.length →
        (⟨f + idx, (download_footer (rem.getD idx fileDefault)).1,
          (download_footer (rem.getD idx fileDefault)).2⟩ : PrefetchEvent) ∈ evs := by
  intro rem
  induction rem with
  | nil => intro f evs _ idx hidx; simp at hidx
  | cons file rest ih =>
    intro f evs h idx hidx
    rcases hpf : processFile files schema projection f file with ⟨evs1, stop1⟩
    cases stop1 with
    | some s =>
      rw [filesLoop, hpf] at h
      simp at h
    | none =>
      rcases hfl : filesLoop files schema projection (f + 1) rest with ⟨evs2, stop2⟩
      rw [filesLoop, hpf, hfl] at h
      have hpair : evs1 ++ evs2 = evs ∧ stop2 = none := by
        constructor
        · exact congrArg Prod.fst h
        · exact congrArg Prod.snd h
      obtain ⟨hevs, hstop⟩ := hpair
      subst hevs
      cases idx with
      | zero =>
        have hne : schema.fields = file.arrow_schema.fields := by
          by_contra hne
          rw [processFile_eq, if_pos hne] at hpf
          simp at hpf
        rw [processFile_eq, if_neg (by simp [hne])] at hpf
        have h1 := congrArg Prod.fst hpf
        simp only [Prod.fst] at h1
        apply List.mem_append_left
        rw [← h1]
        simp
      | succ n =>
        have hmem := ih (f + 1) evs2 (by rw [hfl, hstop]) n (by simpa using hidx)
        apply List.mem_append_right
        have harith : f + 1 + n = f + (n + 1) := by omega
        simpa [harith] using hmem

/-- The stop of the column loop is never a Plan error. -/
theorem columnLoop_no_planStop (files : List S3FileAsync) (rg : RowGroupMeta)
    (i : Nat) :
    ∀ (projection : List Nat) (m : String),
      (columnLoop files rg i projection).2 ≠ some (.planStop m) := by
  intro projection
  induction projection with
  | nil => intro m; simp [columnLoop]
  | cons proj rest ih =>
    intro m
    rcases h1 : rg.columns[proj]? with _ | col
    · simp [columnLoop, h1]
    · rcases h2 : files[i]? with _ | file
      · simp [columnLoop, h1, h2]
      · rcases h3 : columnLoop files rg i rest with ⟨evs, stop⟩
        have hih := ih m
        rw [h3] at hih
        intro hc
        rw [columnLoop, h1, h2, h3] at hc
        exact hih (by simpa using hc)

/-- The stop of the row group loop is never a Plan error. -/
theorem rowGroupLoop_no_planStop (files : List S3FileAsync)
    (projection : List Nat) :
    ∀ (rgs : List RowGroupMeta) (i : Nat) (m : String),
      (rowGroupLoop files projection i rgs).2 ≠ some (.planStop m) := by
  intro rgs
  induction rgs with
  | nil => intro i m; simp [rowGroupLoop]
  | cons rg rest ih =>
    intro i m
    rcases h1 : columnLoop files rg i projection with ⟨evs1, stop1⟩
    cases stop1 with
    | some s =>
      have hcl := columnLoop_no_planStop files rg i projection m
      rw [h1] at hcl
      intro hc
      rw [rowGroupLoop, h1] at hc
      exact hcl (by simpa using hc)
    | none =>
      intro hc
      rcases h2 : rowGroupLoop files projection (i + 1) rest with ⟨evs2, stop2⟩
      rw [rowGroupLoop, h1, h2] at hc
      have hih := ih (i + 1) m
      rw [h2] at hih
      exact hih (by simpa using hc)

/-- A Plan stop of the file loop carries the fixed schema message and
pinpoints a mismatching file. -/
theorem filesLoop_planStop (files : List S3FileAsync) (schema : Schema)
    (projection : List Nat) :
    ∀ (rem : List S3FileAsync) (f : Nat) (evs : List PrefetchEvent) (m : String),
      filesLoop files schema projection f rem = (evs, some (.planStop m)) →
      m = "Expected and parsed schema fields are not equal"
      ∧ ∃ file ∈ rem, schema.fields ≠ file.arrow_schema.fields := by
  intro rem
  induction rem with
  | nil => intro f evs m h; simp [filesLoop] at h
  | cons file rest ih =>
    intro f evs m h
    rcases hpf : processFile files schema projection f file with ⟨evs1, stop1⟩
    cases stop1 with
    | some s =>
      rw [filesLoop, hpf] at h
      have hs : s = TryNewStop.planStop m := by
        have := congrArg Prod.snd h
        simpa using this
      by_cases hne : schema.fields = file.arrow_schema.fields
      · rw [processFile_eq, if_neg (by simp [hne])] at hpf
        have h2 := congrArg Prod.snd hpf
        simp only [Prod.snd] at h2
        exact absurd (by rw [h2, hs]) (rowGroupLoop_no_planStop files projection
          file.metadata.row_groups 0 m)
      · rw [processFile_eq, if_pos hne] at hpf
        have h2 := congrArg Prod.snd hpf
        simp only [Prod.snd] at h2
        rw [hs] at h2
        have hmsg := Option.some.inj h2
        refine ⟨(TryNewStop.planStop.injEq _ _).mp hmsg |>.symm,
          file, List.mem_cons_self _ _, hne⟩
    | none =>
      rcases hfl : filesLoop files schema projection (f + 1) rest with ⟨evs2, stop2⟩
      rw [filesLoop, hpf, hfl] at h
      have hstop : stop2 = some (.planStop m) := by
        have := congrArg Prod.snd h
        simpa using this
      obtain ⟨hm, file2, hmem, hne⟩ := ih (f + 1) evs2 m (by rw [hfl, hstop])
      exact ⟨hm, file2, List.mem_cons_of_mem _ hmem, hne⟩

/-- A mismatching file somewhere in the remaining list prevents the file
loop from finishing cleanly. -/
theorem filesLoop_mismatch_stops (files : List S3FileAsync) (schema : Schema)
    (projection : List Nat) :
    ∀ (rem : List S3FileAsync) (f : Nat),
      (∃ file ∈ rem, schema.fields ≠ file.arrow_schema.fields) →
      (filesLoop files schema projection f rem).2 ≠ none := by
  intro rem
  induction rem with
  | nil => intro f h; simp at h
  | cons file rest ih =>
    intro f hex
    rcases hpf : processFile files schema projection f file with ⟨evs1, stop1⟩
    cases stop1 with
    | some s =>
      rw [filesLoop, hpf]
      simp
    | none =>
      have hmatch : schema.fields = file.arrow_schema.fields := by
        by_contra hne
        rw [processFile_eq, if_pos hne] at hpf
        simp at hpf
      have hrest : ∃ file2 ∈ rest, schema.fields ≠ file2.arrow_schema.fields := by
        rcases hex with ⟨file2, hmem, hne⟩
        rcases List.mem_cons.mp hmem with heq | hmem2
        · exact absurd hmatch (heq ▸ hne)
        · exact ⟨file2, hmem2, hne⟩
      rcases hfl : filesLoop files schema projection (f + 1) rest with ⟨evs2, stop2⟩
      rw [filesLoop, hpf, hfl]
      have hih := ih (f + 1) hrest
      rw [hfl] at hih
      simpa using hih

/- ===================== Claim C6 ===================== -/

/-- C6: whenever ParquetExec::try_new succeeds, every input file got a
footer prefetch on that file: the byte range [len - 1048576, len) when
the file length is at least 1048576 bytes, and the whole file [0, len)
when it is shorter. -/
theorem C6_footer_prefetch (files : List S3FileAsync)
    (projection : Option (List Nat)) (batch_size : Nat) (schema : Schema)
    (evs : List PrefetchEvent) (exec : ParquetExec)
    (hok : ParquetExec.try_new files projection batch_size schema = .ok evs exec) :
    ∀ f, f < files.length →
      (1048576 ≤ (files.getD f fileDefault).len →
        (⟨f, (files.getD f fileDefault).len - 1048576, 1048576⟩ : PrefetchEvent) ∈ evs)
      ∧ ((files.getD f fileDefault).len < 1048576 →
        (⟨f, 0, (files.getD f fileDefault).len⟩ : PrefetchEvent) ∈ evs) := by
  have hfl : filesLoop files schema (defaultProjection projection schema) 0 files
      = (evs, none) := by
    unfold ParquetExec.try_new at hok
    rcases h0 : filesLoop files schema (defaultProjection projection schema) 0 files
      with ⟨evs0, stop0⟩
    rw [h0] at hok
    rcases stop0 with _ | st
    · rcases h1 : projectFields schema.fields (defaultProjection projection schema)
        with _ | projected
      · rw [h1] at hok; simp at hok
      · rw [h1] at hok
        have hevs : evs0 = evs := by cases hok; rfl
        rw [← hevs]
    · cases st <;> simp at hok
  intro f hf
  have hmem := filesLoop_none_events files schema
    (defaultProjection projection schema) files 0 evs hfl f hf
  constructor <;> intro hlen
  · have hd := (download_footer_spec (files.getD f fileDefault)).1 hlen
    rw [hd] at hmem
    simpa using hmem
  · have hd := (download_footer_spec (files.getD f fileDefault)).2 hlen
    rw [hd] at hmem
    simpa using hmem

/-- C6 witness: on a concrete 10-byte file the successful constructor
run contains the whole-file footer prefetch [0, 10). -/
theorem C6_footer_prefetch_witness :
    ParquetExec.try_new c6_files (some [0]) 1024 c3_schema =
      .ok [⟨0, 0, 10⟩]
        ⟨c6_files, ⟨[{ name := "a", dtype := 0, nullable := false }], []⟩, [0], 1024⟩
    ∧ ((c6_files.getD 0 fileDefault).len < 1048576
        ∧ (⟨0, 0, (c6_files.getD 0 fileDefault).len⟩ : PrefetchEvent) ∈
            ([⟨0, 0, 10⟩] : List PrefetchEvent)) :=
  ⟨by rfl,
    by decide,
    (C6_footer_prefetch c6_files (some [0]) 1024 c3_schema [⟨0, 0, 10⟩]
        ⟨c6_files, ⟨[{ name := "a", dtype := 0, nullable := false }], []⟩, [0], 1024⟩
        (by rfl) 0 (by decide)).2 (by decide)⟩

/- ===================== Claim C7 ===================== -/

/-- C7: the schema check of ParquetExec::try_new compares field lists
only. A file whose parsed field list differs from the supplied schema
field list makes the per-file step return the Plan error immediately;
an error Result of try_new is always that Plan error and implies a
mismatching file; a mismatching file anywhere prevents success; and
when every field list matches, no Plan error is ever returned,
whatever the schema-level metadata of either side. -/
theorem C7_schema_field_check (files : List S3FileAsync)
    (projection : Option (List Nat)) (batch_size : Nat) (schema : Schema) :
    (∀ (pr : List Nat) (f : Nat) (file : S3FileAsync),
        schema.fields ≠ file.arrow_schema.fields →
        processFile files schema pr f file =
          ([⟨f, (download_footer file).1, (download_footer file).2⟩],
            some (.planStop "Expected and parsed schema fields are not equal")))
    ∧ (∀ evs e, ParquetExec.try_new files projection batch_size schema = .err evs e →
        e = .planError "Expected and parsed schema fields are not equal"
        ∧ ∃ file ∈ files, schema.fields ≠ file.arrow_schema.fields)
    ∧ ((∃ file ∈ files, schema.fields ≠ file.arrow_schema.fields) →
        (ParquetExec.try_new files projection batch_size schema).isOk = false)
    ∧ ((∀ file ∈ files, schema.fields = file.arrow_schema.fields) →
        (ParquetExec.try_new files projection batch_size schema).isErr = false) := by
  refine ⟨fun pr f file hne => ?_, fun evs e h => ?_, fun hex => ?_, fun hall => ?_⟩
  · rw [processFile_eq, if_pos hne]
  · unfold ParquetExec.try_new at h
    rcases h0 : filesLoop files schema (defaultProjection projection schema) 0 files
      with ⟨evs0, stop0⟩
    rw [h0] at h
    rcases stop0 with _ | st
    · rcases h1 : projectFields schema.fields (defaultProjection projection schema)
        with _ | projected
      · rw [h1] at h; simp at h
      · rw [h1] at h; simp at h
    · cases st with
      | planStop m =>
        have he : e = BuzzError.planError m := by
          cases h; rfl
        obtain ⟨hm, hfile⟩ := filesLoop_planStop files schema
          (defaultProjection projection schema) files 0 evs0 m h0
        exact ⟨by rw [he, hm], hfile⟩
      | panicStop m => simp at h
  · have hstop := filesLoop_mismatch_stops files schema
      (defaultProjection projection schema) files 0 hex
    unfold ParquetExec.try_new
    rcases h0 : filesLoop files schema (defaultProjection projection schema) 0 files
      with ⟨evs0, stop0⟩
    rw [h0] at hstop
    rcases stop0 with _ | st
    · simp at hstop
    · cases st <;> simp [TryNewResult.isOk]
  · unfold ParquetExec.try_new
    rcases h0 : filesLoop files schema (defaultProjection projection schema) 0 files
      with ⟨evs0, stop0⟩
    rcases stop0 with _ | st
    · rcases h1 : projectFields schema.fields (defaultProjection projection schema)
        with _ | projected
      · simp [h1, TryNewResult.isErr]
      · simp [h1, TryNewResult.isErr]
    · cases st with
      | planStop m =>
        obtain ⟨_, file, hmem, hne⟩ := filesLoop_planStop files schema
          (defaultProjection projection schema) files 0 evs0 m h0
        exact absurd (hall file hmem) hne
      | panicStop m => simp [TryNewResult.isErr]

/-- C7 witness: a concrete file whose field list differs only in the
field name from the supplied schema prevents try_new from succeeding. -/
theorem C7_schema_field_check_witness :
    (∃ file ∈ c7_files, c3_schema.fields ≠ file.arrow_schema.fields)
    ∧ (ParquetExec.try_new c7_files none 1024 c3_schema).isOk = false :=
  ⟨by decide,
    (C7_schema_field_check c7_files none 1024 c3_schema).2.2.1 (by decide)⟩

/- ===================== Claim C1: distribution lemmas ===================== -/

/-- Pushing a plan never changes the number of zones. -/
theorem pushBee_length (zones : List ZonePlan) (i : Nat) (p : LogicalPlan) :
    (pushBee zones i p).length = zones.length := by
  unfold pushBee
  rcases h : zones[i]? with _ | z
  · rfl
  · exact List.length_set zones i _

/-- Positional view of pushBee for a valid target index. -/
theorem pushBee_getD (zones : List ZonePlan) (i j : Nat) (p : LogicalPlan)
    (hi : i < zones.length) :
    (pushBee zones i p).getD j zoneDefault =
      if i = j then
        ⟨(zones.getD j zoneDefault).hbee ++ [p], (zones.getD j zoneDefault).hcomb⟩
      else zones.getD j zoneDefault := by
  have h1 : zones[i]? = some zones[i] := List.getElem?_eq_getElem hi
  unfold pushBee
  rw [h1]
  by_cases hij : i = j
  · subst hij
    rw [if_pos rfl, List.getD_eq_getElem?_getD, List.getElem?_set, if_pos rfl,
      if_pos hi, List.getD_eq_getElem?_getD, h1]
    rfl
  · rw [if_neg hij, List.getD_eq_getElem?_getD, List.getElem?_set, if_neg hij,
      List.getD_eq_getElem?_getD]

/-- The distribution loop never changes the number of zones. -/
theorem distributeLoop_length (z : Nat) :
    ∀ (plans : List LogicalPlan) (i : Nat) (zones : List ZonePlan),
      (distributeLoop z i plans zones).length = zones.length := by
  intro plans
  induction plans with
  | nil => intro i zones; rfl
  | cons p rest ih =>
    intro i zones
    rw [distributeLoop, ih, pushBee_length]

/-- Positional characterisation of the distribution loop: starting the
enumeration at s, zone j receives (in order) exactly the plans whose
enumeration index is congruent to j modulo the zone count. -/
theorem distributeLoop_getD (z : Nat) (hz : 0 < z) :
    ∀ (plans : List LogicalPlan) (s : Nat) (zones : List ZonePlan),
      zones.length = z → ∀ j, j < z →
      (distributeLoop z s plans zones).getD j zoneDefault =
        ⟨(zones.getD j zoneDefault).hbee ++
            (((List.enumFrom s plans).filter
              (fun ip => decide (ip.1 % z = j))).map Prod.snd),
          (zones.getD j zoneDefault).hcomb⟩ := by
  intro plans
  induction plans with
  | nil =>
    intro s zones hlen j hj
    simp [distributeLoop, List.enumFrom]
  | cons p rest ih =>
    intro s zones hlen j hj
    rw [distributeLoop]
    have hsz : s % z < zones.length := by rw [hlen]; exact Nat.mod_lt _ hz
    have hpl : (pushBee zones (s % z) p).length = z := by
      rw [pushBee_length, hlen]
    rw [ih (s + 1) _ hpl j hj, pushBee_getD zones (s % z) j p hsz]
    by_cases hj2 : s % z = j
    · rw [if_pos hj2]
      have hfil : (List.enumFrom s (p :: rest)).filter
            (fun ip => decide (ip.1 % z = j))
          = (s, p) :: (List.enumFrom (s + 1) rest).filter
            (fun ip => decide (ip.1 % z = j)) := by
        simp [List.enumFrom, List.filter_cons, hj2]
      rw [hfil, List.map_cons, List.append_assoc, List.singleton_append]
    · rw [if_neg hj2]
      have hfil : (List.enumFrom s (p :: rest)).filter
            (fun ip => decide (ip.1 % z = j))
          = (List.enumFrom (s + 1) rest).filter
            (fun ip => decide (ip.1 % z = j)) := by
        simp [List.enumFrom, List.filter_cons, hj2]
      rw [hfil]

/-- Number of indices below k congruent to j modulo z. -/
theorem countP_mod_range (z j : Nat) (hz : 0 < z) (hj : j < z) :
    ∀ k, (List.range k).countP (fun i => decide (i % z = j)) =
      k / z + if j < k % z then 1 else 0 := by
  intro k
  induction k with
  | zero => simp
  | succ k ih =>
    rw [List.range_succ, List.countP_append, ih]
    simp only [List.countP_cons, List.countP_nil, Nat.zero_add]
    have hr : k % z < z := Nat.mod_lt _ hz
    have hqr : z * (k / z) + k % z = k := Nat.div_add_mod k z
    obtain ⟨q, hq⟩ : ∃ q, k / z = q := ⟨_, rfl⟩
    obtain ⟨r, hrr⟩ : ∃ r, k % z = r := ⟨_, rfl⟩
    rw [hq, hrr] at hqr
    rw [hrr] at hr
    rw [hq, hrr]
    by_cases hc : r + 1 = z
    · have hdm : (k + 1) / z = q + 1 ∧ (k + 1) % z = 0 :=
        (Nat.div_mod_unique hz).mpr ⟨by rw [Nat.zero_add, Nat.mul_succ]; omega, hz⟩
      rw [hdm.1, hdm.2]
      simp only [decide_eq_true_eq]
      split_ifs <;> omega
    · have hc2 : r + 1 < z := by omega
      have hdm : (k + 1) / z = q ∧ (k + 1) % z = r + 1 :=
        (Nat.div_mod_unique hz).mpr
          ⟨by rw [show r + 1 + z * q = z * q + r + 1 from by ring, hqr], hc2⟩
      rw [hdm.1, hdm.2]
      simp only [decide_eq_true_eq]
      split_ifs <;> omega

/-- The length of the round-robin residue class of a zone, as a count
over plain indices. -/
theorem zone_filter_length (plans : List LogicalPlan) (z j : Nat) :
    ((plans.enum.filter (fun ip => decide (ip.1 % z = j))).map Prod.snd).length =
      (List.range plans.length).countP (fun i => decide (i % z = j)) := by
  rw [List.length_map, ← List.countP_eq_length_filter, ← List.enum_map_fst plans,
    List.countP_map]
  rfl

/-- A sum over a list of zones as a sum over positions. -/
theorem sum_map_getD (l : List ZonePlan) (f : ZonePlan → Nat) :
    (l.map f).sum =
      ((List.range l.length).map (fun j => f (l.getD j zoneDefault))).sum := by
  induction l with
  | nil => rfl
  | cons a rest ih =>
    rw [List.map_cons, List.sum_cons, List.length_cons, List.range_succ_eq_map,
      List.map_cons, List.sum_cons, List.map_map, ih]
    rfl

/-- Splitting a constant out of a mapped sum. -/
theorem sum_map_const_add (l : List Nat) (c : Nat) (g : Nat → Nat) :
    (l.map (fun j => c + g j)).sum = l.length * c + (l.map g).sum := by
  induction l with
  | nil => simp
  | cons a rest ih =>
    rw [List.map_cons, List.sum_cons, ih, List.map_cons, List.sum_cons,
      List.length_cons, Nat.succ_mul]
    ring

/-- Sum of indicator of indices below r over the range of z. -/
theorem sum_map_ite_lt (r : Nat) :
    ∀ z, ((List.range z).map (fun j => if j < r then 1 else 0)).sum = min r z := by
  intro z
  induction z with
  | zero => simp
  | succ z ih =>
    rw [List.range_succ, List.map_append, List.sum_append, ih]
    by_cases h : z < r
    · simp [h]; omega
    · simp [h]; omega

/- ===================== Claim C1 ===================== -/

/-- C1: when the steps pass the assert, the scan step splits into k of
at least 1 bee plans and at least one combiner is available (a positive
i16 count), QueryPlanner::plan returns a DistributedPlan with exactly
min(nb_hcomb, k) zones; every zone carries a clone of the parsed merge
plan; zone j holds, in order, exactly the bee plans whose index is
congruent to j modulo the zone count (round robin); the zone sizes add
up to k and differ pairwise by at most one. -/
theorem C1_round_robin_distribution
    (query_steps : List BuzzStep) (hsteps : stepsAssert query_steps = true)
    (src_bee_plan hcomb_plan : LogicalPlan) (bee_plans : List LogicalPlan)
    (hsplit : split src_bee_plan = .ok bee_plans)
    (k : Nat) (hk : bee_plans.length = k) (hk1 : 1 ≤ k)
    (nb_hcomb : Int) (hn1 : 1 ≤ nb_hcomb) (hn2 : nb_hcomb ≤ 32767) :
    ∃ dp : DistributedPlan,
      QueryPlanner.plan (.ok src_bee_plan) (.ok hcomb_plan) query_steps nb_hcomb
        = .ok dp
      ∧ dp.zones.length = min nb_hcomb.toNat k
      ∧ (∀ j, j < min nb_hcomb.toNat k →
          (dp.zones.getD j zoneDefault).hcomb = hcomb_plan
          ∧ (dp.zones.getD j zoneDefault).hbee =
              ((bee_plans.enum.filter
                  (fun ip => decide (ip.1 % min nb_hcomb.toNat k = j))).map Prod.snd))
      ∧ (dp.zones.map (fun zp => zp.hbee.length)).sum = k
      ∧ (∀ j1 j2, j1 < min nb_hcomb.toNat k → j2 < min nb_hcomb.toNat k →
          (dp.zones.getD j1 zoneDefault).hbee.length ≤
            (dp.zones.getD j2 zoneDefault).hbee.length + 1) := by
  have hzn : i16_as_usize nb_hcomb = nb_hcomb.toNat := by
    unfold i16_as_usize
    have h64 : (2 : Int) ^ 64 = 18446744073709551616 := by norm_num
    rw [h64, Int.emod_eq_of_lt (by omega) (by omega)]
  set z := min nb_hcomb.toNat k with hzdef
  have hz1 : 1 ≤ z := by
    rw [hzdef]
    refine le_min ?_ hk1
    omega
  set zones0 : List ZonePlan :=
    (List.range z).map (fun _i => ZonePlan.mk [] hcomb_plan) with hzones0
  have hlen0 : zones0.length = z := by
    rw [hzones0, List.length_map, List.length_range]
  have hplan : QueryPlanner.plan (.ok src_bee_plan) (.ok hcomb_plan)
      query_steps nb_hcomb = .ok ⟨distributeLoop z 0 bee_plans zones0⟩ := by
    unfold QueryPlanner.plan
    rw [hsteps]
    simp only [if_true]
    rw [hsplit]
    simp only [hzn, hk, ← hzdef]
    rw [if_neg (by rintro ⟨h0, _⟩; omega)]
  have hget0 : ∀ j, j < z → zones0.getD j zoneDefault = ⟨[], hcomb_plan⟩ := by
    intro j hj
    rw [hzones0, List.getD_eq_getElem?_getD, List.getElem?_map,
      List.getElem?_range hj]
    rfl
  have hcontent : ∀ j, j < z →
      (distributeLoop z 0 bee_plans zones0).getD j zoneDefault =
        ⟨((bee_plans.enum.filter (fun ip => decide (ip.1 % z = j))).map Prod.snd),
          hcomb_plan⟩ := by
    intro j hj
    rw [distributeLoop_getD z (by omega) bee_plans 0 zones0 hlen0 j hj,
      hget0 j hj]
    rfl
  have hcount : ∀ j, j < z →
      ((distributeLoop z 0 bee_plans zones0).getD j zoneDefault).hbee.length =
        k / z + if j < k % z then 1 else 0 := by
    intro j hj
    rw [hcontent j hj]
    show ((bee_plans.enum.filter (fun ip => decide (ip.1 % z = j))).map
      Prod.snd).length = _
    rw [zone_filter_length, hk]
    exact countP_mod_range z j (by omega) hj k
  have hzlen : (distributeLoop z 0 bee_plans zones0).length = z := by
    rw [distributeLoop_length, hlen0]
  refine ⟨⟨distributeLoop z 0 bee_plans zones0⟩, hplan, hzlen, ?_, ?_, ?_⟩
  · intro j hj
    exact ⟨by rw [hcontent j hj], by rw [hcontent j hj]⟩
  · show ((distributeLoop z 0 bee_plans zones0).map (fun zp => zp.hbee.length)).sum = k
    rw [sum_map_getD, hzlen]
    have hmapeq : (List.range z).map (fun j =>
          ((distributeLoop z 0 bee_plans zones0).getD j zoneDefault).hbee.length)
        = (List.range z).map (fun j => k / z + if j < k % z then 1 else 0) := by
      apply List.map_congr_left
      intro j hjmem
      exact hcount j (List.mem_range.mp hjmem)
    rw [hmapeq, sum_map_const_add, sum_map_ite_lt, List.length_range]
    have hrlt : k % z < z := Nat.mod_lt _ (by omega)
    rw [Nat.min_eq_left (le_of_lt hrlt)]
    exact Nat.div_add_mod k z
  · intro j1 j2 hj1 hj2
    rw [hcount j1 hj1, hcount j2 hj2]
    split_ifs <;> omega

/-- C1 witness: a catalog splitting into three files with two combiners
yields two zones in round robin. -/
theorem C1_round_robin_distribution_witness :
    stepsAssert [⟨"SELECT * FROM test", "mapper", .HBee⟩,
        ⟨"SELECT * FROM mapper", "reducer", .HComb⟩] = true
    ∧ split (.tableScan (.catalogTable [0, 1, 2])) =
        .ok [.tableScan (.hbeeTable 0), .tableScan (.hbeeTable 1),
          .tableScan (.hbeeTable 2)]
    ∧ ∃ dp : DistributedPlan,
        QueryPlanner.plan (.ok (.tableScan (.catalogTable [0, 1, 2])))
            (.ok (.tableScan (.hcombTable 0)))
            [⟨"SELECT * FROM test", "mapper", .HBee⟩,
              ⟨"SELECT * FROM mapper", "reducer", .HComb⟩] 2 = .ok dp
        ∧ dp.zones.length = min (Int.toNat 2) 3
        ∧ (∀ j, j < min (Int.toNat 2) 3 →
            (dp.zones.getD j zoneDefault).hcomb = .tableScan (.hcombTable 0)
            ∧ (dp.zones.getD j zoneDefault).hbee =
                ((([LogicalPlan.tableScan (.hbeeTable 0),
                    LogicalPlan.tableScan (.hbeeTable 1),
                    LogicalPlan.tableScan (.hbeeTable 2)].enum.filter
                    (fun ip => decide (ip.1 % min (Int.toNat 2) 3 = j))).map Prod.snd)))
        ∧ (dp.zones.map (fun zp => zp.hbee.length)).sum = 3
        ∧ (∀ j1 j2, j1 < min (Int.toNat 2) 3 → j2 < min (Int.toNat 2) 3 →
            (dp.zones.getD j1 zoneDefault).hbee.length ≤
              (dp.zones.getD j2 zoneDefault).hbee.length + 1) :=
  ⟨by rfl, by rfl,
    C1_round_robin_distribution
      [⟨"SELECT * FROM test", "mapper", .HBee⟩,
        ⟨"SELECT * FROM mapper", "reducer", .HComb⟩] (by rfl)
      (.tableScan (.catalogTable [0, 1, 2])) (.tableScan (.hcombTable 0))
      [.tableScan (.hbeeTable 0), .tableScan (.hbeeTable 1),
        .tableScan (.hbeeTable 2)] (by rfl) 3 (by rfl) (by omega)
      2 (by omega) (by omega)⟩
